import Mathlib

/- Verification development for a batch document-ingestion pipeline
   (Slack fetch → PDF download → parallel text extraction → LLM metadata
   enrichment → PostgreSQL persistence).  Each Python function of the
   repository that the claims touch is shallowly embedded as an executable
   Lean definition; external effects (the OpenAI API, the Slack API, the
   filesystem, the database connection) are abstracted as explicit oracle
   arguments or threaded state, so that the control flow of the Python code
   is reproduced exactly. -/

/-- Result of `json.loads` + the two `result.get` calls on one OpenAI
response: `title` and `publication_date`, each possibly absent (`None`). -/
structure DocMetadata where
  title : Option String
  publication_date : Option String
deriving Repr, DecidableEq, Inhabited

/-- Outcome of one `client.chat.completions.create` call together with the
subsequent JSON decode, as observed by `MetadataExtractor.extract_metadata`:
a response whose content parses to a two-field object (`response (some m)`),
a response that is not parseable JSON (`response none`, i.e.
`json.JSONDecodeError`), a `RateLimitError`, an `APIError`, or any other
unexpected exception. -/
inductive ApiAttempt where
  | response (parsed : Option DocMetadata)
  | rateLimitError
  | apiError
  | unexpectedError
deriving Repr, DecidableEq

/-- Observable result of `extract_metadata`: the returned dictionary plus an
execution trace — how many API calls were performed and the list of
`time.sleep` delays (in seconds) taken between attempts. -/
structure ExtractResult where
  metadata : DocMetadata
  attempts : Nat
  sleeps : List Nat
deriving Repr, DecidableEq

/-- Embedding of the retry loop body of `MetadataExtractor.extract_metadata`
(src/metadata_extractor.py lines 56-105).  `calls n` is the outcome of the
API call at loop index `n`; `attempt` is the current loop index and
`remaining` the number of loop iterations still available
(`max_retries - attempt`).  Mirrors the Python control flow exactly:
a parsed response returns the metadata; `JSONDecodeError` and unexpected
exceptions return `{None, None}` without retrying; `RateLimitError` sleeps
`2 ** attempt` then retries while `attempt < max_retries - 1` (i.e.
`remaining ≥ 2`), else returns `{None, None}`; `APIError` likewise but with
a fixed sleep of 2 seconds. -/
def extractMetadataGo (calls : Nat → ApiAttempt) (attempt : Nat) :
    Nat → ExtractResult
  | 0 => { metadata := ⟨none, none⟩, attempts := 0, sleeps := [] }
  | remaining + 1 =>
    match calls attempt with
    | ApiAttempt.response (some m) => { metadata := m, attempts := 1, sleeps := [] }
    | ApiAttempt.response none => { metadata := ⟨none, none⟩, attempts := 1, sleeps := [] }
    | ApiAttempt.unexpectedError => { metadata := ⟨none, none⟩, attempts := 1, sleeps := [] }
    | ApiAttempt.rateLimitError =>
      match remaining with
      | 0 => { metadata := ⟨none, none⟩, attempts := 1, sleeps := [] }
      | k + 1 =>
        let rest := extractMetadataGo calls (attempt + 1) (k + 1)
        { metadata := rest.metadata, attempts := rest.attempts + 1,
          sleeps := 2 ^ attempt :: rest.sleeps }
    | ApiAttempt.apiError =>
      match remaining with
      | 0 => { metadata := ⟨none, none⟩, attempts := 1, sleeps := [] }
      | k + 1 =>
        let rest := extractMetadataGo calls (attempt + 1) (k + 1)
        { metadata := rest.metadata, attempts := rest.attempts + 1,
          sleeps := 2 :: rest.sleeps }

/-- The `extract_metadata` method with an explicit `max_retries` argument:
runs the retry loop from attempt 0 with `max_retries` iterations available.
When `max_retries = 0` the `for` loop body never runs and the trailing
`return {'title': None, 'publication_date': None}` is reached. -/
def extract_metadataWith (calls : Nat → ApiAttempt) (max_retries : Nat) :
    ExtractResult :=
  extractMetadataGo calls 0 max_retries

/-- The `extract_metadata` method at its default `max_retries = 3`. -/
def extract_metadata (calls : Nat → ApiAttempt) : ExtractResult :=
  extract_metadataWith calls 3

/-- One stage-to-stage record of the pipeline.  The Python code passes
loosely typed dictionaries between stages; this structure holds every key
any stage ever sets, with pre-stage defaults (empty string / zero / `none`)
standing for keys not yet present in the dictionary. -/
structure FileRecord where
  file_id : String
  file_name : String
  local_path : String
  slack_url : String
  message_ts : String
  message_text : String
  file_size : Nat
  extracted_text : String
  text_file_path : String
  text_length : Nat
  title : Option String
  publication_date : Option String
deriving Repr, DecidableEq, Inhabited

/-- Body of the per-file loop of `MetadataExtractor.process_files`
(src/metadata_extractor.py lines 119-136): if the extracted text is empty
(`if not text:`), skip the remote call and use `{None, None}`; otherwise
call `extract_metadata` (default retries).  The returned record is
`{**file_info, **metadata}` — the dictionary merge that adds or overwrites
exactly the keys `title` and `publication_date`. -/
def enrichOne (calls : Nat → ApiAttempt) (f : FileRecord) : FileRecord :=
  let metadata :=
    if f.extracted_text = "" then DocMetadata.mk none none
    else (extract_metadata calls).metadata
  { f with title := metadata.title, publication_date := metadata.publication_date }

/-- Recursive worker for `process_files`: `i` is the position of the head of
the remaining list in the original input, and `api i` is the API-call oracle
for the document at position `i`. -/
def processFilesFrom (api : Nat → Nat → ApiAttempt) (i : Nat) :
    List FileRecord → List FileRecord
  | [] => []
  | f :: rest => enrichOne (api i) f :: processFilesFrom api (i + 1) rest

/-- Embedding of `MetadataExtractor.process_files`
(src/metadata_extractor.py lines 107-139): processes the input list
strictly sequentially, appending one enriched record per input.  The
inter-document `time.sleep(0.5)` has no observable effect on the returned
list and is not modelled. -/
def process_files (api : Nat → Nat → ApiAttempt) (files : List FileRecord) :
    List FileRecord :=
  processFilesFrom api 0 files

/- Extractor stage (src/pdf_processor.py). -/

/-- Embedding of `extract_text_from_pdf` (src/pdf_processor.py lines 13-43).
The PyMuPDF black box (`fitz.open` + per-page `get_text()`) is the oracle
`readPdf`, yielding the list of page texts or an exception; the function
joins the pages with newline separators and degrades any exception to the
empty string. -/
def extract_text_from_pdf (readPdf : String → Except String (List String))
    (pdf_path : String) : String :=
  match readPdf pdf_path with
  | Except.ok pages => String.intercalate "\n" pages
  | Except.error _ => ""

/-- Embedding of Python `Path.with_suffix('.txt')`: replace the extension
after the last dot, or append `.txt` when there is none. -/
def withTxtSuffix (p : String) : String :=
  let parts := p.splitOn "."
  if parts.length ≤ 1 then p ++ ".txt"
  else String.intercalate "." parts.dropLast ++ ".txt"

/-- Embedding of `process_single_pdf` (src/pdf_processor.py lines 46-72):
extracts the text of the record's `local_path` and returns
`{**file_info, 'extracted_text': ..., 'text_file_path': ..., 'text_length': ...}`.
The audit side effect of writing the sidecar text file (whose failure is
logged and ignored) does not affect the returned record and is not
modelled. -/
def process_single_pdf (readPdf : String → Except String (List String))
    (f : FileRecord) : FileRecord :=
  let text := extract_text_from_pdf readPdf f.local_path
  { f with extracted_text := text, text_file_path := withTxtSuffix f.local_path,
           text_length := text.length }

/-- Worker-pool semantics of `multiprocessing.Pool.map`: each worker `j` of
`order` (the completion order of the workers) produces the pair of its input
index and its result.  The pool hands results back tagged with their input
index, so completion order only permutes this intermediate list. -/
def runWorkers (f : FileRecord → FileRecord) (inputs : List FileRecord)
    (order : List Nat) : List (Nat × FileRecord) :=
  order.filterMap (fun j => (inputs.get? j).map (fun a => (j, f a)))

/-- Order-preserving gather of `Pool.map`: slot `i` of the output is the
completed result tagged with index `i`; `none` if some slot never completed
(impossible when the completion order is a permutation of the worker
indices). -/
def gatherIdx (completed : List (Nat × FileRecord)) :
    Nat → List FileRecord → Option (List FileRecord)
  | _, [] => some []
  | i, _ :: rest =>
    match completed.lookup i, gatherIdx completed (i + 1) rest with
    | some b, some bs => some (b :: bs)
    | _, _ => none

/-- `Pool.map f inputs` under completion order `order`: run the workers in
completion order, then gather the results by input index. -/
def poolMap (f : FileRecord → FileRecord) (inputs : List FileRecord)
    (order : List Nat) : Option (List FileRecord) :=
  gatherIdx (runWorkers f inputs order) 0 inputs

/-- Embedding of `PDFProcessor.process_pdfs` (src/pdf_processor.py lines
91-120): returns `[]` for an empty input (`if not files:`), otherwise
`pool.map(process_single_pdf, files)` with the pool's order-preserving
gather, parametrised by the workers' completion order. -/
def process_pdfs (readPdf : String → Except String (List String))
    (order : List Nat) (files : List FileRecord) : Option (List FileRecord) :=
  if files.isEmpty then some []
  else poolMap (process_single_pdf readPdf) files order

/-- Embedding of the `max_workers` computation in `PDFProcessor.__init__`
(src/pdf_processor.py lines 78-89): when called with `max_workers=None` the
pool size is `min(Config.MAX_WORKERS, cpu_count())`; when called with an
explicit integer that integer is used as is. -/
def pdfProcessorMaxWorkers (cfgMaxWorkers cpuCount : Nat) :
    Option Nat → Nat
  | none => min cfgMaxWorkers cpuCount
  | some w => w

/-- Pool size of the `PDFProcessor` as constructed by the pipeline:
src/main.py line 74 passes `Config.MAX_WORKERS` explicitly
(`PDFProcessor(Config.MAX_WORKERS)`), never `None`. -/
def mainPdfProcessorWorkers (cfgMaxWorkers cpuCount : Nat) : Nat :=
  pdfProcessorMaxWorkers cfgMaxWorkers cpuCount (some cfgMaxWorkers)

/- Slack client (src/slack_client.py). -/

/-- One entry of the `files` array of a Slack message, with the fields
`download_pdf` / `download_all_pdfs` read; optional fields model
`dict.get` with its default. -/
structure SlackFile where
  id : String
  name : Option String
  url_private : String
  permalink : Option String
  size : Option Nat
deriving Repr, DecidableEq, Inhabited

/-- A message as consumed by `download_all_pdfs`: its timestamp and text
(optional, read with `get(..., '')`) and its `pdf_files` list. -/
structure SlackMessage where
  ts : Option String
  text : Option String
  pdf_files : List SlackFile
deriving Repr, DecidableEq, Inhabited

/-- Filesystem-and-network state threaded through the Downloader: the set of
paths present on disk and a counter of network requests issued
(`requests.get` calls). -/
structure DownloadState where
  disk : List String
  requests : Nat
deriving Repr, DecidableEq, Inhabited

/-- The `safe_filename` of `download_pdf`: `f"{file_id}_{file_name}"`, the
name defaulting to `f"{file_id}.pdf"`. -/
def safeFilename (fi : SlackFile) : String :=
  fi.id ++ "_" ++ fi.name.getD (fi.id ++ ".pdf")

/-- The destination path `download_path / safe_filename` of `download_pdf`. -/
def downloadTargetPath (fi : SlackFile) (download_path : String) : String :=
  download_path ++ "/" ++ safeFilename fi

/-- Embedding of `SlackClient.download_pdf` (src/slack_client.py lines
102-144).  `fetch url` abstracts `requests.get` + `raise_for_status` + the
chunked write to disk, succeeding or raising.  If the target path already
exists the function returns it without touching the network; otherwise it
issues one request and, on success, the path is added to the disk.  On
failure the exception propagates (the request still counted). -/
def download_pdf (fetch : String → Except String Unit) (fi : SlackFile)
    (download_path : String) (s : DownloadState) :
    Except String String × DownloadState :=
  let file_path := downloadTargetPath fi download_path
  if file_path ∈ s.disk then (Except.ok file_path, s)
  else
    match fetch fi.url_private with
    | Except.error e => (Except.error e, { s with requests := s.requests + 1 })
    | Except.ok _ =>
      (Except.ok file_path,
       { disk := file_path :: s.disk, requests := s.requests + 1 })

/-- The record appended by `download_all_pdfs` for a successfully downloaded
attachment (src/slack_client.py lines 166-174), with the later-stage keys
at their pre-stage defaults. -/
def mkDownloadedRecord (m : SlackMessage) (fi : SlackFile) (path : String) :
    FileRecord :=
  { file_id := fi.id, file_name := fi.name.getD "unknown.pdf",
    local_path := path, slack_url := fi.permalink.getD "",
    message_ts := m.ts.getD "", message_text := m.text.getD "",
    file_size := fi.size.getD 0,
    extracted_text := "", text_file_path := "", text_length := 0,
    title := none, publication_date := none }

/-- Inner loop of `download_all_pdfs` over one message's `pdf_files`: a
successful `download_pdf` appends its record, a raising one is caught
(`except ... continue`) and contributes nothing; the disk/network state
threads through either way. -/
def downloadMessageFiles (fetch : String → Except String Unit)
    (download_path : String) (m : SlackMessage) :
    List SlackFile → DownloadState → List FileRecord × DownloadState
  | [], s => ([], s)
  | fi :: rest, s =>
    match download_pdf fetch fi download_path s with
    | (Except.ok path, s1) =>
      let tr := downloadMessageFiles fetch download_path m rest s1
      (mkDownloadedRecord m fi path :: tr.1, tr.2)
    | (Except.error _, s1) => downloadMessageFiles fetch download_path m rest s1

/-- Embedding of `SlackClient.download_all_pdfs` (src/slack_client.py lines
146-180): the nested loop over messages and their `pdf_files`. -/
def download_all_pdfs (fetch : String → Except String Unit)
    (download_path : String) :
    List SlackMessage → DownloadState → List FileRecord × DownloadState
  | [], s => ([], s)
  | m :: rest, s =>
    let a := downloadMessageFiles fetch download_path m m.pdf_files s
    let b := download_all_pdfs fetch download_path rest a.2
    (a.1 ++ b.1, b.2)

/-- The flattened list of (message, attachment) pairs that
`download_all_pdfs` iterates over, in iteration order. -/
def attachmentsOf : List SlackMessage → List (SlackMessage × SlackFile)
  | [] => []
  | m :: rest => m.pdf_files.map (fun fi => (m, fi)) ++ attachmentsOf rest

/-- Instrumented run of the same per-attachment loop: records, for every
attachment in iteration order, the outcome of its `download_pdf` call
(threading the same state), without dropping anything. -/
def downloadTrace (fetch : String → Except String Unit)
    (download_path : String) :
    List (SlackMessage × SlackFile) → DownloadState →
    List ((SlackMessage × SlackFile) × Except String String) × DownloadState
  | [], s => ([], s)
  | (m, fi) :: rest, s =>
    let step := download_pdf fetch fi download_path s
    let tr := downloadTrace fetch download_path rest step.2
    (((m, fi), step.1) :: tr.1, tr.2)

/-- Projection from a traced attachment outcome to the output record
`download_all_pdfs` emits for it: a record for a success, nothing for a
caught failure. -/
def traceRecord :
    (SlackMessage × SlackFile) × Except String String → Option FileRecord
  | ((m, fi), Except.ok path) => some (mkDownloadedRecord m fi path)
  | (_, Except.error _) => none

/-- A channel entry of the `conversations_list` response. -/
structure SlackChannel where
  id : String
  name : String
deriving Repr, DecidableEq, Inhabited

/-- Errors of the Fetcher: `channelNotFound` is the
`ValueError(f"Channel '{channel_name}' not found")` of `get_channel_id`;
`apiError` is a propagated `SlackApiError`. -/
inductive SlackError where
  | channelNotFound (name : String)
  | apiError (msg : String)
deriving Repr, DecidableEq

/-- Embedding of `SlackClient.get_channel_id` (src/slack_client.py lines
26-48): `channels` is the outcome of `conversations_list` (which may raise
`SlackApiError`, re-raised); the first channel whose `name` matches is
returned, else the `ValueError` — the not-found error — is raised.  The
`except SlackApiError` clause does not catch that `ValueError`. -/
def get_channel_id (channels : Except String (List SlackChannel))
    (channel_name : String) : Except SlackError String :=
  match channels with
  | Except.error e => Except.error (SlackError.apiError e)
  | Except.ok chans =>
    match chans.find? (fun c => c.name == channel_name) with
    | some c => Except.ok c.id
    | none => Except.error (SlackError.channelNotFound channel_name)

/-- Python `channel.startswith('C')` for the one-character needle: true
exactly when the string's first character is `'C'`. -/
def startsWithC (s : String) : Bool :=
  match s.data with
  | [] => false
  | c :: _ => c == 'C'

/-- Channel-id resolution step of `SlackClient.fetch_messages`
(src/slack_client.py lines 60-64): a channel string that does not start
with `'C'` is resolved through `get_channel_id`; one that does is used
directly as the channel id with no lookup. -/
def fetchMessagesChannelId (channels : Except String (List SlackChannel))
    (channel : String) : Except SlackError String :=
  if ¬ startsWithC channel then get_channel_id channels channel
  else Except.ok channel

/- Database manager (src/db_manager.py). -/

/-- A row of the `documents` table as created by
`DatabaseManager.init_schema` (src/db_manager.py lines 47-67):
`id SERIAL PRIMARY KEY`, `file_id ... UNIQUE NOT NULL`, the metadata
columns, and the `processed_at` / `updated_at` timestamps (both defaulting
to `CURRENT_TIMESTAMP` on insert).  Timestamps are modelled as naturals. -/
structure DocumentRow where
  id : Nat
  file_id : String
  file_name : String
  title : Option String
  publication_date : Option String
  extracted_text_path : String
  text_length : Nat
  slack_url : String
  message_ts : String
  message_text : String
  file_size : Nat
  processed_at : Nat
  updated_at : Nat
deriving Repr, DecidableEq, Inhabited

/-- State of the `documents` table: its rows plus the next value of the
`SERIAL` sequence backing the `id` column. -/
structure DocumentsDb where
  rows : List DocumentRow
  nextId : Nat
deriving Repr, DecidableEq, Inhabited

/-- The row inserted by `insert_document` when no row with the document's
`file_id` exists: all ten supplied columns plus `id` from the sequence and
both timestamps set to the current time (`DEFAULT CURRENT_TIMESTAMP`).
`extracted_text_path` is `str(document.get('text_file_path', ''))`. -/
def insertedRow (db : DocumentsDb) (doc : FileRecord) (now : Nat) :
    DocumentRow :=
  { id := db.nextId, file_id := doc.file_id, file_name := doc.file_name,
    title := doc.title, publication_date := doc.publication_date,
    extracted_text_path := doc.text_file_path, text_length := doc.text_length,
    slack_url := doc.slack_url, message_ts := doc.message_ts,
    message_text := doc.message_text, file_size := doc.file_size,
    processed_at := now, updated_at := now }

/-- The `ON CONFLICT (file_id) DO UPDATE SET` clause of `insert_document`
(src/db_manager.py lines 119-125): exactly `title`, `publication_date`,
`extracted_text_path`, `text_length` are overwritten from the excluded row
and `updated_at` is set to `CURRENT_TIMESTAMP`; every other column of the
existing row is left as it was. -/
def updateRowFields (r : DocumentRow) (doc : FileRecord) (now : Nat) :
    DocumentRow :=
  { r with title := doc.title, publication_date := doc.publication_date,
           extracted_text_path := doc.text_file_path,
           text_length := doc.text_length, updated_at := now }

/-- Embedding of `DatabaseManager.insert_document` (src/db_manager.py lines
97-156): an upsert keyed by `file_id`.  If a row with the document's
`file_id` exists (the `UNIQUE` constraint guarantees at most one), that row
is updated in place via `updateRowFields` and its `id` returned; otherwise
a fresh row is appended and its new serial `id` returned. -/
def insert_document (db : DocumentsDb) (doc : FileRecord) (now : Nat) :
    Option Nat × DocumentsDb :=
  match db.rows.find? (fun r => r.file_id == doc.file_id) with
  | some r =>
    (some r.id,
     { db with rows := db.rows.map (fun x =>
         if x.file_id == doc.file_id then updateRowFields x doc now else x) })
  | none =>
    (some db.nextId,
     { rows := db.rows ++ [insertedRow db doc now], nextId := db.nextId + 1 })

/-- Embedding of `DatabaseManager.document_exists` (src/db_manager.py lines
79-95): `conn` is the outcome of `get_connection()` + the `SELECT 1 FROM
documents WHERE file_id = %s` round trip — either the reached table or a
raised exception.  The result is `fetchone() is not None`; any exception is
caught and turned into `False`, so the function never raises. -/
def document_exists (conn : Except String DocumentsDb) (file_id : String) :
    Bool :=
  match conn with
  | Except.error _ => false
  | Except.ok db => (db.rows.find? (fun r => r.file_id == file_id)).isSome

/- Concrete sample data used by witnesses and counterexamples. -/

/-- A sample post-extraction record with the given id and extracted text. -/
def sampleExtracted (fid text : String) : FileRecord :=
  { file_id := fid, file_name := fid ++ ".pdf", local_path := "pdfs/" ++ fid,
    slack_url := "", message_ts := "", message_text := "", file_size := 0,
    extracted_text := text, text_file_path := "pdfs/" ++ fid ++ ".txt",
    text_length := text.length, title := none, publication_date := none }

/-- Five documents with non-empty extracted text, for the partial-failure
scenario of the Enricher. -/
def files5 : List FileRecord :=
  [sampleExtracted "F0" "t0", sampleExtracted "F1" "t1",
   sampleExtracted "F2" "t2", sampleExtracted "F3" "t3",
   sampleExtracted "F4" "t4"]

/-- API oracle for the five-document scenario: document 2 gets a response
that is not parseable JSON on its first call; every other document gets a
well-formed two-field response. -/
def api5 (docIdx : Nat) (_attempt : Nat) : ApiAttempt :=
  if docIdx == 2 then ApiAttempt.response none
  else ApiAttempt.response (some ⟨some "Annual Review", some "2024-01-01"⟩)

/-- Concrete attachment descriptor for Downloader witnesses. -/
def sampleFile1 : SlackFile :=
  { id := "F1", name := some "report.pdf", url_private := "https://x/f1",
    permalink := some "https://slack/f1", size := some 10 }

/-- A fetch oracle that always succeeds. -/
def fetchOk : String → Except String Unit := fun _ => Except.ok ()

/-- Two downloaded records for the Extractor order-preservation witness. -/
def files2 : List FileRecord :=
  [sampleExtracted "G0" "", sampleExtracted "G1" ""]

/-- A PDF-reading oracle returning one page holding the path itself. -/
def readPdf0 : String → Except String (List String) :=
  fun p => Except.ok [p]

/- Helper lemmas. -/

/-- When every API call raises `RateLimitError`, the retry loop starting at
`attempt` with `remaining` iterations left performs all `remaining` calls,
sleeping `2 ^ (attempt + j)` before retry `j + 1`, and ends with nulls. -/
theorem extractGo_rateLimit_all (calls : Nat → ApiAttempt)
    (h : ∀ n, calls n = ApiAttempt.rateLimitError) :
    ∀ (remaining attempt : Nat),
      extractMetadataGo calls attempt remaining =
        { metadata := ⟨none, none⟩, attempts := remaining,
          sleeps := (List.range (remaining - 1)).map (fun j => 2 ^ (attempt + j)) } := by
  intro remaining
  induction remaining with
  | zero => intro attempt; simp [extractMetadataGo]
  | succ n ih =>
    intro attempt
    cases n with
    | zero => simp [extractMetadataGo, h]
    | succ m =>
      have hm := ih (attempt + 1)
      simp only [extractMetadataGo, h, hm, ExtractResult.mk.injEq]
      refine ⟨trivial, trivial, ?_⟩
      rw [show m + 1 + 1 - 1 = m + 1 from rfl, List.range_succ_eq_map]
      simp only [List.map_cons, List.map_map, Nat.add_zero, Function.comp]
      refine List.cons_eq_cons.mpr ⟨rfl, ?_⟩
      apply List.map_congr_left
      intro a _
      show 2 ^ (attempt + 1 + a) = 2 ^ (attempt + (a + 1))
      rw [show attempt + 1 + a = attempt + (a + 1) by omega]

/-- The length of `process_files` output equals the input length,
independently of the starting index. -/
theorem processFilesFrom_length (api : Nat → Nat → ApiAttempt) :
    ∀ (l : List FileRecord) (i : Nat),
      (processFilesFrom api i l).length = l.length := by
  intro l
  induction l with
  | nil => intro i; rfl
  | cons f rest ih => intro i; simp [processFilesFrom, ih]

/-- Element `k` of the `process_files` output is the enrichment of element
`k` of the input, with the API oracle of position `i + k`. -/
theorem processFilesFrom_getD (api : Nat → Nat → ApiAttempt) :
    ∀ (l : List FileRecord) (k i : Nat), k < l.length →
      (processFilesFrom api i l).getD k default =
        enrichOne (api (i + k)) (l.getD k default) := by
  intro l
  induction l with
  | nil => intro k i hk; simp at hk
  | cons f rest ih =>
    intro k i hk
    cases k with
    | zero => simp [processFilesFrom]
    | succ k =>
      have hk : k < rest.length := by simpa using hk
      have hrec := ih k (i + 1) hk
      rw [show i + (k + 1) = i + 1 + k by omega]
      simpa [processFilesFrom] using hrec

/-- Looking up input index `k` among the completed worker results yields
`f` applied to input `k`, whatever the completion order, as long as the
order covers `k` and stays in bounds. -/
theorem lookup_runWorkers (f : FileRecord → FileRecord)
    (inputs : List FileRecord) :
    ∀ (order : List Nat), (∀ j ∈ order, j < inputs.length) →
      ∀ (k : Nat) (hk : k < inputs.length), k ∈ order →
        (runWorkers f inputs order).lookup k = some (f (inputs.get ⟨k, hk⟩)) := by
  intro order
  induction order with
  | nil => intro _ k hk hmem; simp at hmem
  | cons j rest ih =>
    intro hbound k hk hmem
    have hj : j < inputs.length := hbound j (List.mem_cons_self j rest)
    have hrest : ∀ x ∈ rest, x < inputs.length :=
      fun x hx => hbound x (List.mem_cons_of_mem _ hx)
    rw [runWorkers, List.filterMap_cons]
    rw [List.get?_eq_get hj]
    by_cases hkj : k = j
    · subst hkj
      simp [List.lookup]
    · have hmem2 : k ∈ rest := by
        rcases List.mem_cons.mp hmem with h1 | h2
        · exact absurd h1 hkj
        · exact h2
      have := ih hrest k hk hmem2
      have hbeq : (k == j) = false := beq_eq_false_iff_ne.mpr hkj
      simpa [List.lookup, hbeq, runWorkers] using this

/-- The index-directed gather returns the mapped list whenever every slot's
lookup succeeds with the mapped element. -/
theorem gatherIdx_eq (f : FileRecord → FileRecord)
    (completed : List (Nat × FileRecord)) :
    ∀ (l : List FileRecord) (i : Nat),
      (∀ (k : Nat) (hk : k < l.length),
        completed.lookup (i + k) = some (f (l.get ⟨k, hk⟩))) →
      gatherIdx completed i l = some (l.map f) := by
  intro l
  induction l with
  | nil => intro i _; rfl
  | cons a rest ih =>
    intro i hyp
    have h0 : completed.lookup i = some (f a) := by
      have := hyp 0 (by simp)
      simpa using this
    have hrest : ∀ (k : Nat) (hk : k < rest.length),
        completed.lookup (i + 1 + k) = some (f (rest.get ⟨k, hk⟩)) := by
      intro k hk
      have := hyp (k + 1) (by simpa using Nat.succ_lt_succ hk)
      rw [show i + 1 + k = i + (k + 1) by omega]
      simpa using this
    simp [gatherIdx, h0, ih (i + 1) hrest]

/-- The modelled `Pool.map` equals the sequential map for every completion
order that is a permutation of the input indices. -/
theorem poolMap_perm (f : FileRecord → FileRecord) (inputs : List FileRecord)
    (order : List Nat) (h : order.Perm (List.range inputs.length)) :
    poolMap f inputs order = some (inputs.map f) := by
  have hmem : ∀ j, j ∈ order ↔ j < inputs.length := by
    intro j
    rw [h.mem_iff, List.mem_range]
  apply gatherIdx_eq
  intro k hk
  rw [Nat.zero_add]
  exact lookup_runWorkers f inputs order (fun j hj => (hmem j).mp hj) k hk
    ((hmem k).mpr hk)

/-- The instrumented per-attachment trace splits over list append, threading
the state through. -/
theorem downloadTrace_append (fetch : String → Except String Unit)
    (dp : String) :
    ∀ (l1 l2 : List (SlackMessage × SlackFile)) (s : DownloadState),
      downloadTrace fetch dp (l1 ++ l2) s =
        ((downloadTrace fetch dp l1 s).1 ++
           (downloadTrace fetch dp l2 (downloadTrace fetch dp l1 s).2).1,
         (downloadTrace fetch dp l2 (downloadTrace fetch dp l1 s).2).2) := by
  intro l1
  induction l1 with
  | nil => intro l2 s; simp [downloadTrace]
  | cons a rest ih =>
    intro l2 s
    obtain ⟨m, fi⟩ := a
    simp [downloadTrace, ih]

/-- The inner loop of `download_all_pdfs` over one message's files equals
the filtered projection of the instrumented trace of those files. -/
theorem downloadMessageFiles_trace (fetch : String → Except String Unit)
    (dp : String) (m : SlackMessage) :
    ∀ (fis : List SlackFile) (s : DownloadState),
      downloadMessageFiles fetch dp m fis s =
        (((downloadTrace fetch dp (fis.map (fun fi => (m, fi))) s).1).filterMap
           traceRecord,
         (downloadTrace fetch dp (fis.map (fun fi => (m, fi))) s).2) := by
  intro fis
  induction fis with
  | nil => intro s; simp [downloadMessageFiles, downloadTrace]
  | cons fi rest ih =>
    intro s
    cases hstep : download_pdf fetch fi dp s with
    | mk r s1 =>
      cases r with
      | ok path =>
        simp [downloadMessageFiles, downloadTrace, hstep, traceRecord, ih]
      | error e =>
        simp [downloadMessageFiles, downloadTrace, hstep, traceRecord, ih]

/-- The instrumented trace covers exactly the attachments it was given, in
order: no attachment is skipped or duplicated. -/
theorem downloadTrace_fst (fetch : String → Except String Unit) (dp : String) :
    ∀ (l : List (SlackMessage × SlackFile)) (s : DownloadState),
      ((downloadTrace fetch dp l s).1).map Prod.fst = l := by
  intro l
  induction l with
  | nil => intro s; simp [downloadTrace]
  | cons a rest ih =>
    intro s
    obtain ⟨m, fi⟩ := a
    simp [downloadTrace, ih]

/-- The nested-loop `download_all_pdfs` equals the filtered projection of
the instrumented trace over the flattened attachment list. -/
theorem download_all_eq_trace (fetch : String → Except String Unit)
    (dp : String) :
    ∀ (messages : List SlackMessage) (s : DownloadState),
      download_all_pdfs fetch dp messages s =
        (((downloadTrace fetch dp (attachmentsOf messages) s).1).filterMap
           traceRecord,
         (downloadTrace fetch dp (attachmentsOf messages) s).2) := by
  intro messages
  induction messages with
  | nil => intro s; simp [download_all_pdfs, attachmentsOf, downloadTrace]
  | cons m rest ih =>
    intro s
    simp only [download_all_pdfs, attachmentsOf, downloadTrace_append,
      downloadMessageFiles_trace, ih, List.filterMap_append]

/-- Searching an appended list skips a first part in which nothing is
found. -/
theorem find?_append_of_none {α : Type} (p : α → Bool) :
    ∀ (l1 l2 : List α), l1.find? p = none →
      (l1 ++ l2).find? p = l2.find? p := by
  intro l1
  induction l1 with
  | nil => intro l2 _; rfl
  | cons a rest ih =>
    intro l2 h
    cases hpa : p a with
    | true => simp [List.find?, hpa] at h
    | false =>
      simp only [List.find?, hpa] at h
      simp only [List.cons_append, List.find?, hpa]
      exact ih l2 h

/-- The conditional update map is the identity on a list with no matching
element. -/
theorem map_upsert_no_match {α : Type} (p : α → Bool) (u : α → α) :
    ∀ (l : List α), (∀ r ∈ l, p r = false) →
      l.map (fun x => if p x then u x else x) = l := by
  intro l
  induction l with
  | nil => intro _; rfl
  | cons a rest ih =>
    intro h
    have ha := h a (List.mem_cons_self a rest)
    simp [ha, ih (fun r hr => h r (List.mem_cons_of_mem _ hr))]

/- Claim theorems. -/

/-- C1: when the enrichment call raises a transient rate-limiting error on
every attempt, `extract_metadata` performs exactly `max_retries` attempts
(3 at the default), sleeping an exponentially doubling delay
`2 ^ j` seconds after attempt `j + 1` (`[1, 2]` at the default), and then
returns `{title: None, publication_date: None}` — the embedding is a total
function, so no exception escapes. -/
theorem enricher_backoff_termination (calls : Nat → ApiAttempt)
    (max_retries : Nat) (h : ∀ n, calls n = ApiAttempt.rateLimitError) :
    extract_metadataWith calls max_retries =
      { metadata := ⟨none, none⟩, attempts := max_retries,
        sleeps := (List.range (max_retries - 1)).map (fun j => 2 ^ j) } ∧
    extract_metadata calls =
      { metadata := ⟨none, none⟩, attempts := 3, sleeps := [1, 2] } := by
  constructor
  · have := extractGo_rateLimit_all calls h max_retries 0
    simpa [extract_metadataWith] using this
  · have := extractGo_rateLimit_all calls h 3 0
    simp only [extract_metadata, extract_metadataWith, this]
    rfl

/-- Witness for C1: the all-rate-limited oracle at the default
`max_retries = 3`. -/
theorem enricher_backoff_termination_witness :
    extract_metadataWith (fun _ => ApiAttempt.rateLimitError) 3 =
      { metadata := ⟨none, none⟩, attempts := 3,
        sleeps := (List.range 2).map (fun j => 2 ^ j) } ∧
    extract_metadata (fun _ => ApiAttempt.rateLimitError) =
      { metadata := ⟨none, none⟩, attempts := 3, sleeps := [1, 2] } :=
  enricher_backoff_termination (fun _ => ApiAttempt.rateLimitError) 3
    (fun _ => rfl)

/-- C6: a response not parseable as the expected two-field structure makes
`extract_metadata` stop after exactly one attempt with no sleeps, emitting
`{None, None}`; `process_files` still returns one output per input, and in
the concrete five-document run where exactly document 2 gets a malformed
response, the stage returns five outputs of which exactly one is the null
pair. -/
theorem enricher_malformed_no_retry (calls : Nat → ApiAttempt)
    (api : Nat → Nat → ApiAttempt) (files : List FileRecord)
    (hm : calls 0 = ApiAttempt.response none) :
    extract_metadata calls =
      { metadata := ⟨none, none⟩, attempts := 1, sleeps := [] } ∧
    (process_files api files).length = files.length ∧
    (process_files api5 files5).length = 5 ∧
    (process_files api5 files5).countP
      (fun f => f.title.isNone && f.publication_date.isNone) = 1 := by
  refine ⟨?_, processFilesFrom_length api files 0, by decide, by decide⟩
  simp [extract_metadata, extract_metadataWith, extractMetadataGo, hm]

/-- Witness for C6: the malformed-response oracle together with the
five-document scenario. -/
theorem enricher_malformed_no_retry_witness :
    extract_metadata (fun _ => ApiAttempt.response none) =
      { metadata := ⟨none, none⟩, attempts := 1, sleeps := [] } ∧
    (process_files api5 files5).length = files5.length ∧
    (process_files api5 files5).length = 5 ∧
    (process_files api5 files5).countP
      (fun f => f.title.isNone && f.publication_date.isNone) = 1 :=
  enricher_malformed_no_retry (fun _ => ApiAttempt.response none) api5 files5 rfl

/-- C9: `process_files` preserves length and at every index returns the
input record with only `title` and `publication_date` added or overwritten:
each of the other ten fields is carried through unchanged. -/
theorem enricher_frame (api : Nat → Nat → ApiAttempt)
    (files : List FileRecord) (i : Nat) (h : i < files.length) :
    (process_files api files).length = files.length ∧
    ((process_files api files).getD i default).file_id =
      (files.getD i default).file_id ∧
    ((process_files api files).getD i default).file_name =
      (files.getD i default).file_name ∧
    ((process_files api files).getD i default).local_path =
      (files.getD i default).local_path ∧
    ((process_files api files).getD i default).slack_url =
      (files.getD i default).slack_url ∧
    ((process_files api files).getD i default).message_ts =
      (files.getD i default).message_ts ∧
    ((process_files api files).getD i default).message_text =
      (files.getD i default).message_text ∧
    ((process_files api files).getD i default).file_size =
      (files.getD i default).file_size ∧
    ((process_files api files).getD i default).extracted_text =
      (files.getD i default).extracted_text ∧
    ((process_files api files).getD i default).text_file_path =
      (files.getD i default).text_file_path ∧
    ((process_files api files).getD i default).text_length =
      (files.getD i default).text_length ∧
    ∃ t d, (process_files api files).getD i default =
      { files.getD i default with title := t, publication_date := d } := by
  have hget := processFilesFrom_getD api files i 0 h
  rw [Nat.zero_add] at hget
  unfold process_files
  rw [hget]
  refine ⟨processFilesFrom_length api files 0, rfl, rfl, rfl, rfl, rfl, rfl,
    rfl, rfl, rfl, rfl, ?_⟩
  exact ⟨_, _, rfl⟩

/-- C2: for every list of downloaded files and every worker completion
order (any permutation of the input indices), `process_pdfs` returns
exactly one output per input, the output at index `i` being
`process_single_pdf` of the input at index `i`. -/
theorem extractor_order_preservation
    (readPdf : String → Except String (List String))
    (order : List Nat) (files : List FileRecord)
    (h : order.Perm (List.range files.length)) :
    process_pdfs readPdf order files =
      some (files.map (process_single_pdf readPdf)) ∧
    ∀ (i : Nat), i < files.length →
      (files.map (process_single_pdf readPdf)).getD i default =
        process_single_pdf readPdf (files.getD i default) := by
  constructor
  · by_cases he : files.isEmpty
    · have : files = [] := List.isEmpty_iff.mp he
      subst this
      simp [process_pdfs]
    · simp [process_pdfs, he, poolMap_perm _ _ _ h]
  · intro i hi
    have h1 : (files.map (process_single_pdf readPdf)).getD i default =
        (files.map (process_single_pdf readPdf)).get ⟨i, by simpa using hi⟩ :=
      List.getD_eq_get _ _ _
    have h2 : files.getD i default = files.get ⟨i, hi⟩ := List.getD_eq_get _ _ _
    rw [h1, h2, List.get_map]

/-- Witness for C2: two files processed under the reversed completion order
`[1, 0]`. -/
theorem extractor_order_preservation_witness :
    process_pdfs readPdf0 [1, 0] files2 =
      some (files2.map (process_single_pdf readPdf0)) ∧
    ∀ (i : Nat), i < files2.length →
      (files2.map (process_single_pdf readPdf0)).getD i default =
        process_single_pdf readPdf0 (files2.getD i default) :=
  extractor_order_preservation readPdf0 [1, 0] files2 (by decide)

/-- C5 counterexample: with configured max workers 8 and 4 available CPUs,
the pool constructed by the pipeline (which passes `Config.MAX_WORKERS`
explicitly to `PDFProcessor`) has size 8, not `min 8 4 = 4`, refuting the
claim that the pipeline's pool size is always the minimum of the two. -/
theorem extractor_pool_size_counterexample :
    mainPdfProcessorWorkers 8 4 = 8 ∧
    mainPdfProcessorWorkers 8 4 ≠ min 8 4 := by decide

/-- C5 amended: the pool size as used by the pipeline equals the configured
max workers for every configuration; the `min` with available CPU
parallelism applies only when `PDFProcessor` is constructed without an
explicit `max_workers` argument (`None`), a path the pipeline never
takes. -/
theorem extractor_pool_size_amended (cfgMaxWorkers cpuCount : Nat) :
    mainPdfProcessorWorkers cfgMaxWorkers cpuCount = cfgMaxWorkers ∧
    pdfProcessorMaxWorkers cfgMaxWorkers cpuCount none =
      min cfgMaxWorkers cpuCount :=
  ⟨rfl, rfl⟩

/-- C3: if the file named `{id}_{name}` already exists in the destination
directory, `download_pdf` performs no network request and returns the
existing path (the returned state is unchanged, so the request counter does
not move); and after any successful call, the disk holds exactly the one
target file beyond what it held before, and a second call with the same
descriptor and destination returns the same path with the state unchanged —
no network request and no new file. -/
theorem downloader_idempotent (fetch : String → Except String Unit)
    (fi : SlackFile) (dp : String) (s : DownloadState) :
    (downloadTargetPath fi dp ∈ s.disk →
      download_pdf fetch fi dp s = (Except.ok (downloadTargetPath fi dp), s)) ∧
    (∀ p, (download_pdf fetch fi dp s).1 = Except.ok p →
      p = downloadTargetPath fi dp ∧
      (download_pdf fetch fi dp s).2.disk =
        (if downloadTargetPath fi dp ∈ s.disk then s.disk
         else downloadTargetPath fi dp :: s.disk) ∧
      download_pdf fetch fi dp ((download_pdf fetch fi dp s).2) =
        (Except.ok p, (download_pdf fetch fi dp s).2)) := by
  constructor
  · intro hmem
    simp [download_pdf, hmem]
  · intro p hp
    by_cases hmem : downloadTargetPath fi dp ∈ s.disk
    · simp only [download_pdf, if_pos hmem] at hp ⊢
      have hpe : p = downloadTargetPath fi dp := by
        exact Except.ok.inj hp.symm
      subst hpe
      simp [hmem]
    · cases hfetch : fetch fi.url_private with
      | error e =>
        simp only [download_pdf, if_neg hmem, hfetch] at hp
        exact absurd hp (by simp)
      | ok u =>
        simp only [download_pdf, if_neg hmem, hfetch] at hp ⊢
        have hpe : p = downloadTargetPath fi dp := by
          exact Except.ok.inj hp.symm
        subst hpe
        refine ⟨rfl, by simp [hmem], ?_⟩
        simp [List.mem_cons_self]

/-- C7: for every message list, fetch oracle and starting state,
`download_all_pdfs` processes every attachment of the flattened message
list exactly once, in order (the trace's first projection is exactly the
attachment list); its output is the trace filtered down to the successful
downloads — one record per success, failing attachments dropped with
processing continuing — and the final disk/network state is that of the
full trace. -/
theorem downloader_partial_failure (fetch : String → Except String Unit)
    (dp : String) (messages : List SlackMessage) (s : DownloadState) :
    (download_all_pdfs fetch dp messages s).1 =
      ((downloadTrace fetch dp (attachmentsOf messages) s).1).filterMap
        traceRecord ∧
    (download_all_pdfs fetch dp messages s).2 =
      (downloadTrace fetch dp (attachmentsOf messages) s).2 ∧
    ((downloadTrace fetch dp (attachmentsOf messages) s).1).map Prod.fst =
      attachmentsOf messages := by
  refine ⟨?_, ?_, downloadTrace_fst fetch dp (attachmentsOf messages) s⟩
  · rw [download_all_eq_trace]
  · rw [download_all_eq_trace]

/-- Witness for C3: a pre-existing file is returned with no state change,
and a fresh download followed by a re-download leaves the state of the
first call untouched. -/
theorem downloader_idempotent_witness :
    download_pdf fetchOk sampleFile1 "dl"
        { disk := ["dl/F1_report.pdf"], requests := 7 } =
      (Except.ok "dl/F1_report.pdf",
       { disk := ["dl/F1_report.pdf"], requests := 7 }) ∧
    download_pdf fetchOk sampleFile1 "dl"
        ((download_pdf fetchOk sampleFile1 "dl" { disk := [], requests := 0 }).2) =
      (Except.ok "dl/F1_report.pdf",
       (download_pdf fetchOk sampleFile1 "dl" { disk := [], requests := 0 }).2) := by
  constructor
  · exact (downloader_idempotent fetchOk sampleFile1 "dl"
      { disk := ["dl/F1_report.pdf"], requests := 7 }).1 (by decide)
  · exact ((downloader_idempotent fetchOk sampleFile1 "dl"
      { disk := [], requests := 0 }).2 "dl/F1_report.pdf" (by rfl)).2.2

/-- Witness for C9: the five-document scenario at index 1. -/
theorem enricher_frame_witness :
    (process_files api5 files5).length = files5.length ∧
    ((process_files api5 files5).getD 1 default).file_id =
      (files5.getD 1 default).file_id ∧
    ((process_files api5 files5).getD 1 default).file_name =
      (files5.getD 1 default).file_name ∧
    ((process_files api5 files5).getD 1 default).local_path =
      (files5.getD 1 default).local_path ∧
    ((process_files api5 files5).getD 1 default).slack_url =
      (files5.getD 1 default).slack_url ∧
    ((process_files api5 files5).getD 1 default).message_ts =
      (files5.getD 1 default).message_ts ∧
    ((process_files api5 files5).getD 1 default).message_text =
      (files5.getD 1 default).message_text ∧
    ((process_files api5 files5).getD 1 default).file_size =
      (files5.getD 1 default).file_size ∧
    ((process_files api5 files5).getD 1 default).extracted_text =
      (files5.getD 1 default).extracted_text ∧
    ((process_files api5 files5).getD 1 default).text_file_path =
      (files5.getD 1 default).text_file_path ∧
    ((process_files api5 files5).getD 1 default).text_length =
      (files5.getD 1 default).text_length ∧
    ∃ t d, (process_files api5 files5).getD 1 default =
      { files5.getD 1 default with title := t, publication_date := d } :=
  enricher_frame api5 files5 1 (by decide)

/-- C8 counterexample: the claim quantifies over every channel name given to
the Fetcher, but a name that begins with `'C'` — here `"Cgeneral"`, absent
from an empty channel list — is treated by `fetch_messages` as an already
resolved channel id: no list-and-match lookup runs and no channel-not-found
error is raised. -/
theorem fetcher_channel_counterexample :
    fetchMessagesChannelId (Except.ok []) "Cgeneral" = Except.ok "Cgeneral" ∧
    fetchMessagesChannelId (Except.ok []) "Cgeneral" ≠
      Except.error (SlackError.channelNotFound "Cgeneral") := by
  refine ⟨rfl, ?_⟩
  intro h
  have h1 : fetchMessagesChannelId (Except.ok []) "Cgeneral" =
      Except.ok "Cgeneral" := rfl
  rw [h1] at h
  exact Except.noConfusion h

/-- C8 amended: for every channel name that does not start with `'C'` (the
only names `fetch_messages` actually resolves; `'C'`-prefixed strings are
passed through as channel ids), resolution performs the list-and-match
lookup and fails with the channel-not-found error whenever no listed
channel has that name — both in `get_channel_id` itself and through
`fetch_messages`. -/
theorem fetcher_channel_not_found (channels : List SlackChannel)
    (name : String) (hn : ¬ startsWithC name)
    (habs : ∀ c ∈ channels, c.name ≠ name) :
    get_channel_id (Except.ok channels) name =
      Except.error (SlackError.channelNotFound name) ∧
    fetchMessagesChannelId (Except.ok channels) name =
      Except.error (SlackError.channelNotFound name) := by
  have hfind : channels.find? (fun c => c.name == name) = none := by
    rw [List.find?_eq_none]
    intro c hc
    simpa using habs c hc
  constructor
  · simp [get_channel_id, hfind]
  · simp [fetchMessagesChannelId, hn, get_channel_id, hfind]

/-- Witness for the amended C8: the name `"research"` against a channel
list holding only `"general"`. -/
theorem fetcher_channel_not_found_witness :
    get_channel_id (Except.ok [{ id := "C123", name := "general" }])
        "research" =
      Except.error (SlackError.channelNotFound "research") ∧
    fetchMessagesChannelId (Except.ok [{ id := "C123", name := "general" }])
        "research" =
      Except.error (SlackError.channelNotFound "research") :=
  fetcher_channel_not_found [{ id := "C123", name := "general" }] "research"
    (by decide) (by decide)

/-- C4: `insert_document` is an upsert keyed by `file_id`.  When no row
with the document's `file_id` exists, a fresh row is appended whose
insertion and update timestamps both equal the current time.  When such a
row exists, the table is rewritten with exactly that row updated in place
(same length, its `id` returned), and the update changes exactly `title`,
`publication_date`, `extracted_text_path`, `text_length` and `updated_at`,
leaving `processed_at`, `id`, `file_id`, `file_name`, `slack_url`,
`message_ts`, `message_text` and `file_size` untouched.  Upserting the same
document twice starting from a table without its key leaves exactly one row
with that `file_id`, whose `updated_at` is the second timestamp and whose
`processed_at` is still the first (insertion) timestamp. -/
theorem persister_upsert (db : DocumentsDb) (doc : FileRecord)
    (t1 t2 : Nat) :
    (db.rows.find? (fun r => r.file_id == doc.file_id) = none →
      (insert_document db doc t1).2.rows = db.rows ++ [insertedRow db doc t1] ∧
      (insertedRow db doc t1).processed_at = t1 ∧
      (insertedRow db doc t1).updated_at = t1) ∧
    (∀ r, db.rows.find? (fun x => x.file_id == doc.file_id) = some r →
      (insert_document db doc t1).2.rows =
        db.rows.map (fun x =>
          if x.file_id == doc.file_id then updateRowFields x doc t1 else x) ∧
      (insert_document db doc t1).2.rows.length = db.rows.length ∧
      (insert_document db doc t1).1 = some r.id) ∧
    (∀ x, (updateRowFields x doc t1).title = doc.title ∧
      (updateRowFields x doc t1).publication_date = doc.publication_date ∧
      (updateRowFields x doc t1).extracted_text_path = doc.text_file_path ∧
      (updateRowFields x doc t1).text_length = doc.text_length ∧
      (updateRowFields x doc t1).updated_at = t1 ∧
      (updateRowFields x doc t1).processed_at = x.processed_at ∧
      (updateRowFields x doc t1).id = x.id ∧
      (updateRowFields x doc t1).file_id = x.file_id ∧
      (updateRowFields x doc t1).file_name = x.file_name ∧
      (updateRowFields x doc t1).slack_url = x.slack_url ∧
      (updateRowFields x doc t1).message_ts = x.message_ts ∧
      (updateRowFields x doc t1).message_text = x.message_text ∧
      (updateRowFields x doc t1).file_size = x.file_size) ∧
    (db.rows.find? (fun r => r.file_id == doc.file_id) = none →
      (insert_document (insert_document db doc t1).2 doc t2).2.rows.filter
          (fun r => r.file_id == doc.file_id) =
        [updateRowFields (insertedRow db doc t1) doc t2] ∧
      (updateRowFields (insertedRow db doc t1) doc t2).updated_at = t2 ∧
      (updateRowFields (insertedRow db doc t1) doc t2).processed_at = t1) := by
  have habs : db.rows.find? (fun r => r.file_id == doc.file_id) = none →
      ∀ r ∈ db.rows, (r.file_id == doc.file_id) = false := by
    intro h r hr
    have := List.find?_eq_none.mp h r hr
    simpa using this
  refine ⟨?_, ?_, ?_, ?_⟩
  · intro h
    simp [insert_document, h, insertedRow]
  · intro r hr
    simp [insert_document, hr]
  · intro x
    simp [updateRowFields]
  · intro h
    have hdb1 : (insert_document db doc t1).2 =
        { rows := db.rows ++ [insertedRow db doc t1],
          nextId := db.nextId + 1 } := by
      simp [insert_document, h]
    have hmatch : ((insertedRow db doc t1).file_id == doc.file_id) = true := by
      simp [insertedRow]
    have hfind2 : (db.rows ++ [insertedRow db doc t1]).find?
        (fun r => r.file_id == doc.file_id) = some (insertedRow db doc t1) := by
      rw [find?_append_of_none _ _ _ h]
      simp [List.find?, hmatch]
    have hrows2 : (insert_document
        { rows := db.rows ++ [insertedRow db doc t1],
          nextId := db.nextId + 1 } doc t2).2.rows =
        db.rows ++ [updateRowFields (insertedRow db doc t1) doc t2] := by
      simp only [insert_document, hfind2]
      rw [List.map_append, map_upsert_no_match _ _ db.rows (habs h)]
      have hfid : (insertedRow db doc t1).file_id = doc.file_id := by
        simp [insertedRow]
      simp [hfid]
    refine ⟨?_, rfl, rfl⟩
    rw [hdb1, hrows2, List.filter_append]
    have hf1 : db.rows.filter (fun r => r.file_id == doc.file_id) = [] := by
      rw [List.filter_eq_nil]
      intro r hr
      simp [habs h r hr]
    have hf2 : ((updateRowFields (insertedRow db doc t1) doc t2).file_id ==
        doc.file_id) = true := by
      simp [updateRowFields, insertedRow]
    rw [hf1]
    simp [List.filter, hf2]

/-- Witness for C4: inserting a sample document into the empty table at
time 10, then upserting it again at time 20. -/
theorem persister_upsert_witness :
    ((insert_document { rows := [], nextId := 1 }
        (sampleExtracted "F0" "t0") 10).2.rows =
      ({ rows := [], nextId := 1 } : DocumentsDb).rows ++
        [insertedRow { rows := [], nextId := 1 } (sampleExtracted "F0" "t0") 10] ∧
     (insertedRow { rows := [], nextId := 1 }
        (sampleExtracted "F0" "t0") 10).processed_at = 10 ∧
     (insertedRow { rows := [], nextId := 1 }
        (sampleExtracted "F0" "t0") 10).updated_at = 10) ∧
    ((insert_document
        (insert_document { rows := [], nextId := 1 }
          (sampleExtracted "F0" "t0") 10).2
        (sampleExtracted "F0" "t0") 20).2.rows.filter
        (fun r => r.file_id == (sampleExtracted "F0" "t0").file_id) =
      [updateRowFields
        (insertedRow { rows := [], nextId := 1 } (sampleExtracted "F0" "t0") 10)
        (sampleExtracted "F0" "t0") 20] ∧
     (updateRowFields
        (insertedRow { rows := [], nextId := 1 } (sampleExtracted "F0" "t0") 10)
        (sampleExtracted "F0" "t0") 20).updated_at = 20 ∧
     (updateRowFields
        (insertedRow { rows := [], nextId := 1 } (sampleExtracted "F0" "t0") 10)
        (sampleExtracted "F0" "t0") 20).processed_at = 10) :=
  ⟨(persister_upsert { rows := [], nextId := 1 }
      (sampleExtracted "F0" "t0") 10 20).1 rfl,
   (persister_upsert { rows := [], nextId := 1 }
      (sampleExtracted "F0" "t0") 10 20).2.2.2 rfl⟩

/-- C10: `document_exists` never raises (the embedding is a total Boolean
function of the connection outcome); every database error yields `False`,
so an unreachable store is indistinguishable from the document being absent
from a reachable one. -/
theorem document_exists_error_absent :
    (∀ e fid, document_exists (Except.error e) fid = false) ∧
    (∀ (db : DocumentsDb) (e fid : String),
      (∀ r ∈ db.rows, r.file_id ≠ fid) →
      document_exists (Except.ok db) fid =
        document_exists (Except.error e) fid) := by
  constructor
  · intro e fid; rfl
  · intro db e fid habs
    have hfind : db.rows.find? (fun r => r.file_id == fid) = none := by
      rw [List.find?_eq_none]
      intro r hr
      simpa using habs r hr
    simp [document_exists, hfind]

/-- Witness for C10: an unreachable store and an empty reachable store give
the same answer for a missing document. -/
theorem document_exists_error_absent_witness :
    document_exists (Except.ok { rows := [], nextId := 1 }) "F9" =
      document_exists (Except.error "connection refused") "F9" :=
  document_exists_error_absent.2 { rows := [], nextId := 1 }
    "connection refused" "F9" (by simp)
